import Mathlib

/-!
Verification development for the product-data processing app (`App.py`).

The Python source is shallowly embedded: every function below is translated
directly from the corresponding Python function.  Strings are modelled as
Lean `String`/`List Char`; Python dictionaries (the description cache and the
image mapping) are modelled as association lists in insertion order, which is
exactly the iteration/serialisation order of a Python `dict`.  Spreadsheet
cells that may be missing (NaN) are modelled as `Option String`.  External,
nondeterministic collaborators (the ViT-GPT2 captioner, `random.choice`) are
modelled as explicit oracle parameters; a captioner failure (network error,
model error) is an `Except.error`, matching a raised Python exception.
-/

namespace App

/-- Python `\s` (whitespace class used by `str.strip` / regex `\s`),
restricted to the ASCII whitespace actually relevant here. -/
def isPySpace (c : Char) : Bool :=
  c.isWhitespace || c == '\x0b' || c == '\x0c'

/-- Strip leading and trailing whitespace from a character list
(Python `str.strip()`). -/
def stripWS (l : List Char) : List Char :=
  ((l.dropWhile isPySpace).reverse.dropWhile isPySpace).reverse

/-- Python `str.strip()` on a `String`. -/
def pyStrip (s : String) : String := String.mk (stripWS s.data)

/-- Python `str.upper()` (ASCII). -/
def pyUpperL (l : List Char) : List Char := l.map Char.toUpper

/-- Python `str.lower()` (ASCII). -/
def pyLowerL (l : List Char) : List Char := l.map Char.toLower

/-- Does `hay` start with `needle`? -/
def startsWithL (needle hay : List Char) : Bool :=
  match needle, hay with
  | [], _ => true
  | _ :: _, [] => false
  | a :: as, b :: bs => a == b && startsWithL as bs

/-- Does `needle` occur contiguously inside `hay`?  (Python `in` on `str`.) -/
def isSubstrL (needle : List Char) : List Char → Bool
  | [] => needle.isEmpty
  | c :: rest => startsWithL needle (c :: rest) || isSubstrL needle rest

/-- Case-insensitive substring test (`pandas str.contains(key, case=False)`
for keys without regex metacharacters, or Python `key in s.lower()`). -/
def containsCI (hay needle : String) : Bool :=
  isSubstrL (pyLowerL needle.data) (pyLowerL hay.data)

/-- `"_" in s` on a character list. -/
def hasUnd (l : List Char) : Bool := l.any (fun c => c == '_')

/-- Python `int(...)` on a string of decimal digits. -/
def natOfDigits (s : String) : Nat :=
  s.data.foldl (fun n c => n * 10 + (c.toNat - 48)) 0

/-!
## `parse_style_number` (App.py lines 216-229)

```python
def parse_style_number(raw_str: str) -> str or None:
    if not raw_str:
        return None
    s = str(raw_str).upper().strip()
    if "_" in s:
        s = s.split("_", 1)[0]
    m = re.search(r"(SR\d{3}-\d{3})", s)
    if m:
        return m.group(1)
    m = re.search(r"(SR\d{6})", s)
    if m:
        candidate = m.group(1)
        return candidate[:5] + "-" + candidate[5:]
    return None
```
-/

/-- Match the regex `SR\d{3}-\d{3}` at the head of the list, returning the
matched characters. -/
def matchSR33 (l : List Char) : Option (List Char) :=
  match l with
  | s :: r :: a :: b :: c :: h :: d :: e :: f :: _ =>
    if s == 'S' && r == 'R' && a.isDigit && b.isDigit && c.isDigit &&
       h == '-' && d.isDigit && e.isDigit && f.isDigit
    then some [s, r, a, b, c, h, d, e, f] else none
  | _ => none

/-- Match the regex `SR\d{6}` at the head of the list. -/
def matchSR6 (l : List Char) : Option (List Char) :=
  match l with
  | s :: r :: a :: b :: c :: d :: e :: f :: _ =>
    if s == 'S' && r == 'R' && a.isDigit && b.isDigit && c.isDigit &&
       d.isDigit && e.isDigit && f.isDigit
    then some [s, r, a, b, c, d, e, f] else none
  | _ => none

/-- `re.search`: leftmost match of the head-matcher `m` in the list. -/
def searchL (m : List Char → Option (List Char)) : List Char → Option (List Char)
  | [] => none
  | c :: rest =>
    match m (c :: rest) with
    | some r => some r
    | none => searchL m rest

/-- The body of `parse_style_number` after upper-casing: strip, truncate at
the first underscore, then the two regex searches. -/
def afterUpper (u : List Char) : Option String :=
  let s := stripWS u
  let s := if hasUnd s then s.takeWhile (fun c => c != '_') else s
  match searchL matchSR33 s with
  | some m => some (String.mk m)
  | none =>
    match searchL matchSR6 s with
    | some cand => some (String.mk (cand.take 5 ++ '-' :: cand.drop 5))
    | none => none

/-- `parse_style_number` from App.py.  `None` is `none`; the empty string is
the only falsy `str`, so `if not raw_str` is an emptiness test. -/
def parse_style_number (raw_str : String) : Option String :=
  if raw_str.data.isEmpty then none
  else afterUpper (pyUpperL raw_str.data)

example : parse_style_number "SR425-706" = some "SR425-706" := by decide
example : parse_style_number "SR425706" = some "SR425-706" := by decide
example : parse_style_number "sr425-706_103_1" = some "SR425-706" := by decide
example : parse_style_number "SR425-706_103_1" = some "SR425-706" := by decide
example : parse_style_number "sr 425 706" = none := by decide
example : parse_style_number "123456" = none := by decide
example : parse_style_number "not a style" = none := by decide
example : parse_style_number "" = none := by decide

/-!
## `get_fashion_type` (App.py lines 46-59) and
## `parse_main_material` (App.py lines 61-92)

`parse_main_material` runs `re.findall(r"(\d+)%\s*([^%]+?)(?=\d+%|$)", q)`,
picks the pair with the strictly highest percentage, strips parentheticals
(`re.sub(r"\(.*?\)", "", m)`), the `™` sign, and surrounding whitespace.
The regex machinery below implements exactly this pattern's backtracking
semantics on character lists.
-/

/-- The ordered keyword list of `get_fashion_type`. -/
def type_map : List String :=
  ["dress", "blouse", "shirt", "knit", "pants", "skirt",
   "jacket", "blazer", "cardigan", "rollneck", "o-neck", "v-neck"]

/-- `get_fashion_type`: first keyword occurring in the lower-cased style
name, default `"piece"`. -/
def get_fashion_type (style_name : String) : String :=
  let lower := String.mk (pyLowerL style_name.data)
  match type_map.find? (fun t => isSubstrL t.data lower.data) with
  | some t => t
  | none => "piece"

/-- Match `\d+%` at the head: the maximal digit run followed by `'%'`
(inside a digit run `%` cannot occur, so backtracking cannot shorten the
run).  Returns the digits and the remainder after the `%`. -/
def digitsPctAt (l : List Char) : Option (String × List Char) :=
  let ds := l.takeWhile (fun c => c.isDigit)
  if ds.isEmpty then none
  else
    match l.drop ds.length with
    | '%' :: rest => some (String.mk ds, rest)
    | _ => none

/-- The lookahead `(?=\d+%|$)`. -/
def lookaheadOK (l : List Char) : Bool :=
  l.isEmpty || (digitsPctAt l).isSome

/-- Lazy capture `([^%]+?)` followed by the lookahead: consume at least one
non-`%` character and stop at the first position where the lookahead holds. -/
def lazyCapFrom (acc : List Char) : List Char → Option (List Char × List Char)
  | [] => none
  | c :: rest =>
    if c == '%' then none
    else if lookaheadOK rest then some (acc ++ [c], rest)
    else lazyCapFrom (acc ++ [c]) rest

/-- `\s*([^%]+?)(?=\d+%|$)` with the regex engine's backtracking: the
greedy `\s*` first consumes `n` whitespace characters, retrying with fewer
on failure of the lazy capture. -/
def matchTail (rest1 : List Char) : Nat → Option (List Char × List Char)
  | 0 => lazyCapFrom [] rest1
  | n + 1 =>
    match lazyCapFrom [] (rest1.drop (n + 1)) with
    | some r => some r
    | none => matchTail rest1 n

/-- Match the whole pattern `(\d+)%\s*([^%]+?)(?=\d+%|$)` at the head of
the list, returning the two groups and the rest (the lookahead is not
consumed). -/
def matchPMAt (l : List Char) : Option ((String × String) × List Char) :=
  match digitsPctAt l with
  | none => none
  | some (ds, rest1) =>
    let ws := rest1.takeWhile isPySpace
    match matchTail rest1 ws.length with
    | none => none
    | some (cap, rest2) => some ((ds, String.mk cap), rest2)

/-- `re.findall` for the pattern above: scan left to right, resuming after
each match.  Fuelled by the list length (every match consumes at least two
characters). -/
def findallPM : Nat → List Char → List (String × String)
  | 0, _ => []
  | _, [] => []
  | fuel + 1, c :: rest =>
    match matchPMAt (c :: rest) with
    | some (g, rest2) => g :: findallPM fuel rest2
    | none => findallPM fuel rest

/-- `re.sub(r"\(.*?\)", "", s)`: after an `'('`, drop through the first
`')'` provided no newline intervenes (`.` does not match `\n`). -/
def afterClose : List Char → Option (List Char)
  | [] => none
  | ')' :: rest => some rest
  | '\n' :: _ => none
  | _ :: rest => afterClose rest

/-- Remove all lazy parenthetical groups, fuelled by the list length. -/
def removeParens : Nat → List Char → List Char
  | 0, l => l
  | _, [] => []
  | fuel + 1, c :: rest =>
    if c == '(' then
      match afterClose rest with
      | some rest2 => removeParens fuel rest2
      | none => c :: removeParens fuel rest
    else c :: removeParens fuel rest

/-- `parse_main_material` from App.py. -/
def parse_main_material (quality_str : String) : String :=
  if quality_str.data.isEmpty then ""
  else
    let found := findallPM quality_str.data.length quality_str.data
    if found.isEmpty then ""
    else
      let best := found.foldl
        (fun (best : Nat × String) m =>
          let pct := natOfDigits m.1
          if pct > best.1 then (pct, pyStrip m.2) else best)
        (0, "")
      let best_mat := best.2.data
      let best_mat := removeParens best_mat.length best_mat
      let best_mat := best_mat.filter (fun c => c != '™')
      String.mk (stripWS best_mat)

example : parse_main_material "80% Viscose (TRADEMARK) 20% Nylon" = "Viscose" := by decide
example : parse_main_material "" = "" := by decide
example : parse_main_material "100% Cotton" = "Cotton" := by decide
example : parse_main_material "80% Viscose (LENZING™ ECOVERO™) 20% Nylon" = "Viscose" := by decide
example : get_fashion_type "Cosy Knit Blouse" = "blouse" := by decide
example : get_fashion_type "Socks" = "piece" := by decide

/-!
## Data model

A `Row` is one spreadsheet row.  Cells are `Option String`: `none` models a
missing value (pandas `NaN`); `some s` a string cell.  `styleId` is the value
of the style column (`"Style No."` or `"Style Number"`, whichever exists).
-/

structure Row where
  styleId : Option String
  styleName : Option String
  quality : Option String
  b2cTags : Option String
deriving DecidableEq

/-- Python `str(x)` on a cell: `str(nan)` is the string `"nan"`. -/
def pyStrOpt : Option String → String
  | none => "nan"
  | some s => s

/-!
## `generate_custom_description` (App.py lines 109-165)

`random.choice` on the two fixed word lists is modelled by two oracle
indices `hw`/`mp` supplied by the caller (the pipeline model draws them from
an oracle); indexing is modulo the list length, so every oracle value picks
a real element, as `random.choice` does.
-/

def HEADWORD_CHOICES : List String :=
  ["Chic", "Stylish", "Cosy", "Modern", "Refined",
   "Sophisticated", "Fashionable", "Trendy", "Luxurious", "Elegant"]

def MATERIAL_PHRASES : List String :=
  ["crafted from", "made of", "expertly woven from",
   "produced in", "beautifully composed of"]

def generate_custom_description (hw mp : Nat) (row : Row) (raw_caption : String) : String :=
  let style_name := pyStrip (pyStrOpt row.styleName)
  let fashion_type := get_fashion_type style_name
  let headword := HEADWORD_CHOICES.getD (hw % HEADWORD_CHOICES.length) ""
  let quality := pyStrip (pyStrOpt row.quality)
  let main_material := parse_main_material quality
  let raw_lower := String.mk (pyLowerL raw_caption.data)
  let sleeve_info :=
    if isSubstrL "long sleeve".data raw_lower.data then "Long-sleeve"
    else if isSubstrL "short sleeve".data raw_lower.data then "Short-sleeve"
    else ""
  let heading := headword ++ " " ++ fashion_type
  let mat_phrase := MATERIAL_PHRASES.getD (mp % MATERIAL_PHRASES.length) ""
  let mat_sentence :=
    if main_material.data.isEmpty then "" else mat_phrase ++ " " ++ main_material ++ "."
  let style_sentence :=
    if sleeve_info.data.isEmpty then
      "This " ++ fashion_type ++ " is designed for timeless versatility."
    else
      "This " ++ fashion_type ++ " features a " ++ sleeve_info ++
        " design, perfect for any occasion."
  let bullet_points := ["Modern silhouette", "Comfortable for daily wear",
                        "Effortless styling options"]
  let description :=
    heading ++ "\n\n" ++ mat_sentence ++ " " ++ style_sentence ++ "\n\n" ++
      "Key Features:\n" ++
      String.intercalate "\n" (bullet_points.map (fun bp => "- " ++ bp))
  pyStrip description

/-!
## Python `dict` model

The description cache and the image mapping are Python dicts (string keys).
A dict is modelled as an association list in insertion order — the
iteration, JSON-serialisation and membership order of a Python `dict`.
`dictSet` is `d[k] = v` (overwrite in place or append), `dictGet` is
`d[k]` / `k in d`.
-/

abbrev Dict := List (String × String)

def dictGet : Dict → String → Option String
  | [], _ => none
  | (k, v) :: rest, key => if k == key then some v else dictGet rest key

def dictSet (d : Dict) (k v : String) : Dict :=
  if d.any (fun p => p.1 == k) then
    d.map (fun p => if p.1 == k then (k, v) else p)
  else d ++ [(k, v)]

/-!
## `load_cache` / `save_cache` (App.py lines 172-181)

```python
def load_cache():
    if os.path.exists(CACHE_FILE):
        with open(CACHE_FILE, "r") as file:
            return json.load(file)
    return {}
```

The file system is modelled as `Option String` (`none` = `CACHE_FILE` does
not exist) and `json.load` as an external parser `jsonParse : String →
Option Dict` (`none` = the content is not valid JSON, in which case
`json.load` raises — modelled as `Except.error`).  There is no `try` in the
source: a parse failure propagates.
-/

def load_cache (jsonParse : String → Option Dict) (file : Option String) :
    Except String Dict :=
  match file with
  | none => .ok []
  | some content =>
    match jsonParse content with
    | some cache => .ok cache
    | none => .error "json.load: invalid JSON"

/-!
## `update_b2c_tags` (App.py lines 183-214)

All the pandas operations are per-row, so the dataframe transformation is
modelled row by row.  Python `set(...)` iteration order is not specified;
`",".join(set(xs))` is modelled as joining the elements deduplicated in
first-occurrence order (`dedupF`) — every claim settled against this model
is robust to the order choice (the counterexamples differ already in the
token multiset).  `df["Quality"].str.replace(...).apply(lambda x: x.split())`
raises `AttributeError` on a `NaN` quality (pandas `.str` propagates `NaN`
and `float.split` does not exist), so the whole function is `Option`-valued:
`none` models the raised exception.
-/

/-- Deduplicate keeping the first occurrence of each element (the model's
fixed enumeration order for Python `set`), structurally via a `seen`
accumulator so that it evaluates in the kernel. -/
def dedupFAux (seen : List String) : List String → List String
  | [] => []
  | x :: xs =>
    if seen.contains x then dedupFAux seen xs
    else x :: dedupFAux (seen ++ [x]) xs

/-- Deduplicate keeping first occurrences. -/
def dedupF (l : List String) : List String := dedupFAux [] l

/-- `",".join(set(xs))` under the first-occurrence order model. -/
def joinSet (xs : List String) : String := String.intercalate "," (dedupF xs)

/-- Python `s.split(",")`, structurally on the character list. -/
def splitCommaAux (cur : List Char) : List Char → List String
  | [] => [String.mk cur.reverse]
  | c :: rest =>
    if c == ',' then String.mk cur.reverse :: splitCommaAux [] rest
    else splitCommaAux (c :: cur) rest

/-- Python `s.split(",")`. -/
def splitComma (s : String) : List String := splitCommaAux [] s.data

/-- Python `s.strip(",")`. -/
def stripCommas (s : String) : String :=
  String.mk (((s.data.dropWhile (fun c => c == ',')).reverse.dropWhile
      (fun c => c == ',')).reverse)

/-- Python `s.split()` (no separator): split on whitespace runs, discarding
empty pieces. -/
def splitWsAux (cur : List Char) : List Char → List String
  | [] => if cur.isEmpty then [] else [String.mk cur.reverse]
  | c :: rest =>
    if isPySpace c then
      if cur.isEmpty then splitWsAux [] rest
      else String.mk cur.reverse :: splitWsAux [] rest
    else splitWsAux (c :: cur) rest

/-- Python `s.split()`. -/
def pySplitWS (s : String) : List String := splitWsAux [] s.data

def tag_translations : List (String × List String) :=
  [("shirt", ["shirt", "shirts", "skjorte", "skjorter", "hemd", "hemden"]),
   ("blouse", ["blouse", "blouses", "blus", "blusar", "bluse", "blusen"]),
   ("dress", ["dress", "dresses", "klänning", "klänningar", "kleid", "kleider"]),
   ("pants", ["pants", "trousers", "byxor", "hose"]),
   ("skirt", ["skirt", "skirts", "kjol", "kjolar", "rock", "röcke"]),
   ("jacket", ["jacket", "jackets", "jacka", "jackor", "jacke", "jacken"]),
   ("blazer", ["blazer", "blazers", "kavaj", "kavajer", "sakko", "sakkos"]),
   ("knit", ["knit", "knitwear", "strik", "stickat", "gestrickt"]),
   ("rollneck", ["rollneck", "roll neck", "rullekrave", "polo krage", "rollkragen", "polokragen"]),
   ("cardigan", ["cardigan", "cardigans", "cardigan", "kofta", "strickjacke", "strickjacken"]),
   ("o-neck", ["o-neck", "o neck", "rund hals", "rundhals", "runda halsen"]),
   ("v-neck", ["v-neck", "v neck", "v-hals", "v-halsausschnitt"]),
   ("ecovero", ["ecovero"]),
   ("gots", ["gots", "_tag_gots"]),
   ("_tag_grs", ["_tag_grs"]),
   ("tencel", ["tencel"]),
   ("lenzing", ["lenzing", "ecovero"])]

/-- The mask `df["Style Name"].str.contains(key, case=False, na=False)` for
one row: `NaN` style names give `False`. -/
def styleMatch (styleName : Option String) (key : String) : Bool :=
  match styleName with
  | none => false
  | some sn => containsCI sn key

/-- One iteration of the translation loop on one row's tag string:
`",".join(set(x.split(",") + values)).strip(",")` applied when the mask
holds. -/
def applyTagKey (styleName : Option String) (b2c : String)
    (kv : String × List String) : String :=
  if styleMatch styleName kv.1 then stripCommas (joinSet (splitComma b2c ++ kv.2))
  else b2c

/-- `re.sub(r"\d+%", "", s)`: at each position, a maximal digit run
immediately followed by `%` is deleted and scanning resumes after it;
otherwise the character is kept (no match can start inside a digit run
whose end is not `%`).  Fuelled by the list length. -/
def removeDigitsPct : Nat → List Char → List Char
  | 0, l => l
  | _, [] => []
  | fuel + 1, c :: rest =>
    match digitsPctAt (c :: rest) with
    | some (_, rest2) => removeDigitsPct fuel rest2
    | none => c :: removeDigitsPct fuel rest

/-- The `Quality Tags` column for one row (quality already known to be a
string): remove `\d+%`, remove the characters `™ ( ) -`, strip, then
`",".join(set(x.split()))`. -/
def qualityTagsOf (q : String) : String :=
  let cleaned := removeDigitsPct q.data.length q.data
  let cleaned := cleaned.filter
    (fun c => !(c == '™' || c == '(' || c == ')' || c == '-'))
  joinSet (pySplitWS (String.mk (stripWS cleaned)))

/-- `update_b2c_tags` restricted to a single row.  `none` models the
`AttributeError` raised on a `NaN` quality. -/
def update_row (row : Row) : Option Row :=
  let b2c0 := row.b2cTags.getD ""
  let b2c1 := tag_translations.foldl (applyTagKey row.styleName) b2c0
  match row.quality with
  | none => none
  | some q =>
    let qt := qualityTagsOf q
    let b2c2 := if qt.data.isEmpty then b2c1 else joinSet [b2c1, qt]
    some { row with b2cTags := some (stripCommas b2c2) }

/-- `update_b2c_tags` over the whole dataframe: `none` as soon as any row
raises (pandas applies each column operation to every row; a single `NaN`
quality aborts the whole call). -/
def update_b2c_tags : List Row → Option (List Row)
  | [] => some []
  | row :: rest =>
    match update_row row, update_b2c_tags rest with
    | some row2, some rest2 => some (row2 :: rest2)
    | _, _ => none

/-!
## The record description pipeline (App.py lines 273-300)

```python
cache = load_cache()
descriptions = []
for _, row in df.iterrows():
    raw_style = str(row[style_column]).strip()
    style_no = parse_style_number(raw_style)
    if style_no is None:
        descriptions.append("No valid style number found.")
        continue
    if style_no in cache:
        descriptions.append(cache[style_no])
    elif style_no in combined_image_mapping:
        image_path = combined_image_mapping[style_no]
        raw_caption = analyze_image(image_path)
        final_desc = generate_custom_description(row, raw_caption)
        cache[style_no] = final_desc
        descriptions.append(final_desc)
    else:
        descriptions.append(f"No matching image found for style ...")
df["Description"] = descriptions
save_cache(cache)
```

The captioner `analyze_image` is an external collaborator: it is a
parameter of type `String → Except String String` (image path to caption;
`Except.error` models a raised exception — note there is no `try` around
the call in the source, so an error propagates out of the whole loop).
`random.choice` inside `generate_custom_description` is modelled by an
oracle `rand : Nat → Nat × Nat` giving the two draws for the record at a
given position.  Each record is additionally labelled with the outcome
vocabulary of the specification (§4.4); the labels are derived from the
branch taken and do not influence the computation.
-/

inductive Outcome where
  | INVALID_KEY | CACHE_HIT | GENERATED | NO_IMAGE
deriving DecidableEq

/-- One iteration of the description loop: returns the description, its
outcome label, and the cache after the iteration, or the propagated
captioner exception. -/
def processRow (captioner : String → Except String String) (pick : Nat × Nat)
    (mapping : Dict) (cache : Dict) (row : Row) :
    Except String ((String × Outcome) × Dict) :=
  let raw_style := pyStrip (pyStrOpt row.styleId)
  match parse_style_number raw_style with
  | none => .ok (("No valid style number found.", .INVALID_KEY), cache)
  | some style_no =>
    match dictGet cache style_no with
    | some cached => .ok ((cached, .CACHE_HIT), cache)
    | none =>
      match dictGet mapping style_no with
      | some image_path =>
        match captioner image_path with
        | .error e => .error e
        | .ok raw_caption =>
          let final_desc := generate_custom_description pick.1 pick.2 row raw_caption
          .ok ((final_desc, .GENERATED), dictSet cache style_no final_desc)
      | none =>
        .ok (("No matching image found for style " ++ style_no, .NO_IMAGE), cache)

/-- The description loop over the rows, starting at record position `i`
with cache `cache`.  Returns the labelled description list and the final
cache (the mapping saved by `save_cache`), or the first propagated
captioner exception. -/
def runLoop (captioner : String → Except String String) (rand : Nat → Nat × Nat)
    (mapping : Dict) :
    List Row → Nat → Dict → Except String (List (String × Outcome) × Dict)
  | [], _, cache => .ok ([], cache)
  | row :: rest, i, cache =>
    match processRow captioner (rand i) mapping cache row with
    | .error e => .error e
    | .ok (d, cache2) =>
      match runLoop captioner rand mapping rest (i + 1) cache2 with
      | .error e => .error e
      | .ok (ds, cacheF) => .ok (d :: ds, cacheF)

/-!
## Helper lemmas: characters
-/

lemma char_toNat_le_of_isDigit (c : Char) (h : c.isDigit = true) :
    48 ≤ c.toNat ∧ c.toNat ≤ 57 := by
  simp only [Char.isDigit, Bool.and_eq_true, decide_eq_true_eq] at h
  obtain ⟨h1, h2⟩ := h
  simp only [UInt32.le_def, BitVec.le_def] at h1 h2
  have e1 : ((48 : UInt32)).toBitVec.toNat = 48 := rfl
  have e2 : ((57 : UInt32)).toBitVec.toNat = 57 := rfl
  rw [e1] at h1; rw [e2] at h2
  exact ⟨h1, h2⟩

lemma ne_of_toNat_ne {c d : Char} (h : c.toNat ≠ d.toNat) : c ≠ d := by
  intro hc; exact h (by rw [hc])

lemma digit_ne (c : Char) (h : c.isDigit = true) (d : Char)
    (hd : d.toNat < 48 ∨ 57 < d.toNat) : c ≠ d := by
  obtain ⟨h1, h2⟩ := char_toNat_le_of_isDigit c h
  apply ne_of_toNat_ne
  omega

lemma isPySpace_false_of_isDigit (c : Char) (h : c.isDigit = true) :
    isPySpace c = false := by
  simp only [isPySpace, Char.isWhitespace, Bool.or_eq_false_iff,
    beq_eq_false_iff_ne, ne_eq, decide_eq_false_iff_not]
  refine ⟨⟨⟨⟨⟨?_, ?_⟩, ?_⟩, ?_⟩, ?_⟩, ?_⟩
  · exact digit_ne c h ' ' (by left; decide)
  · exact digit_ne c h '\t' (by left; decide)
  · exact digit_ne c h '\r' (by left; decide)
  · exact digit_ne c h '\n' (by left; decide)
  · exact digit_ne c h '\x0b' (by left; decide)
  · exact digit_ne c h '\x0c' (by left; decide)

lemma toUpper_of_isDigit (c : Char) (h : c.isDigit = true) : c.toUpper = c := by
  obtain ⟨h1, h2⟩ := char_toNat_le_of_isDigit c h
  simp only [Char.toUpper]
  rw [if_neg]
  rintro ⟨ha, _⟩
  omega

/-!
## Helper lemmas: `dropWhile` / `takeWhile` / `stripWS`
-/

lemma dropWhile_of_all_false {p : Char → Bool} {a : List Char}
    (h : ∀ c ∈ a, p c = false) : a.dropWhile p = a := by
  induction a with
  | nil => rfl
  | cons c rest ih =>
    have hc : p c = false := h c (List.mem_cons_self c rest)
    simp only [List.dropWhile, hc]

lemma dropWhile_append_cons_of_all_false {p : Char → Bool} {a : List Char}
    {c : Char} (ha : ∀ x ∈ a, p x = false) (hc : p c = false) (b : List Char) :
    (a ++ c :: b).dropWhile p = a ++ c :: b := by
  cases a with
  | nil => simp only [List.nil_append, List.dropWhile, hc]
  | cons x rest =>
    have hx : p x = false := ha x (List.mem_cons_self x rest)
    simp only [List.cons_append, List.dropWhile, hx]
    rfl

lemma dropWhile_append_cons_false {p : Char → Bool} {c : Char} (hc : p c = false)
    (a b : List Char) :
    (a ++ c :: b).dropWhile p = a.dropWhile p ++ c :: b := by
  induction a with
  | nil => simp only [List.nil_append, List.dropWhile, hc]
  | cons x rest ih =>
    simp only [List.cons_append, List.dropWhile]
    cases hx : p x with
    | true => simpa using ih
    | false => simp

lemma takeWhile_append_cons {q : Char → Bool} {a : List Char} {c : Char}
    (ha : ∀ x ∈ a, q x = true) (hc : q c = false) (b : List Char) :
    (a ++ c :: b).takeWhile q = a := by
  induction a with
  | nil => simp only [List.nil_append, List.takeWhile, hc]
  | cons x rest ih =>
    have hx : q x = true := ha x (List.mem_cons_self x rest)
    simp only [List.cons_append, List.takeWhile, hx]
    exact congrArg (x :: ·) (ih fun y hy => ha y (List.mem_cons_of_mem x hy))

lemma stripWS_of_all_false {a : List Char} (h : ∀ c ∈ a, isPySpace c = false) :
    stripWS a = a := by
  unfold stripWS
  rw [dropWhile_of_all_false h,
      dropWhile_of_all_false (fun c hc => h c (List.mem_reverse.mp hc)),
      List.reverse_reverse]

lemma stripWS_append_und {u t : List Char} (h : ∀ c ∈ u, isPySpace c = false) :
    stripWS (u ++ '_' :: t) =
      u ++ '_' :: (t.reverse.dropWhile isPySpace).reverse := by
  have hu : isPySpace '_' = false := by decide
  unfold stripWS
  rw [dropWhile_append_cons_of_all_false h hu]
  rw [show (u ++ '_' :: t).reverse = t.reverse ++ '_' :: u.reverse by simp]
  rw [dropWhile_append_cons_false hu]
  simp

/-!
## Helper lemmas: `Dict`
-/

lemma dictAny_false_of_get_none {d : Dict} {k : String}
    (h : dictGet d k = none) : d.any (fun p => p.1 == k) = false := by
  induction d with
  | nil => rfl
  | cons p rest ih =>
    obtain ⟨k1, v1⟩ := p
    by_cases hk : (k1 == k) = true
    · simp only [dictGet, hk, if_true] at h
      cases h
    · simp only [dictGet, hk, if_false] at h
      simp only [List.any_cons, hk, Bool.false_or]
      exact ih h

lemma dictSet_of_get_none {d : Dict} {k : String} (v : String)
    (h : dictGet d k = none) : dictSet d k v = d ++ [(k, v)] := by
  unfold dictSet
  rw [dictAny_false_of_get_none h]
  simp

lemma dictGet_append_left {d1 : Dict} {k v : String} (d2 : Dict)
    (h : dictGet d1 k = some v) : dictGet (d1 ++ d2) k = some v := by
  induction d1 with
  | nil => simp only [dictGet] at h; cases h
  | cons p rest ih =>
    obtain ⟨k1, v1⟩ := p
    by_cases hk : (k1 == k) = true
    · simp only [dictGet, hk, if_true] at h ⊢; exact h
    · simp only [dictGet, hk, if_false] at h ⊢
      exact ih h

lemma dictGet_append_singleton_self {d : Dict} {k : String} (v : String)
    (h : dictGet d k = none) : dictGet (d ++ [(k, v)]) k = some v := by
  induction d with
  | nil => simp [dictGet]
  | cons p rest ih =>
    obtain ⟨k1, v1⟩ := p
    by_cases hk : (k1 == k) = true
    · simp only [dictGet, hk, if_true] at h
      cases h
    · simp only [dictGet, hk, if_false] at h
      simp only [List.cons_append, dictGet, hk, if_false]
      exact ih h

lemma dictGet_dictSet_self {d : Dict} {k : String} (v : String)
    (h : dictGet d k = none) : dictGet (dictSet d k v) k = some v := by
  rw [dictSet_of_get_none v h]
  exact dictGet_append_singleton_self v h

lemma dictGet_dictSet_pres {d : Dict} {k kk v w : String}
    (h : dictGet d k = none) (hw : dictGet d kk = some w) :
    dictGet (dictSet d k v) kk = some w := by
  rw [dictSet_of_get_none v h]
  exact dictGet_append_left _ hw

/-!
## Helper lemmas: the pipeline loop
-/

lemma processRow_pres {captioner : String → Except String String}
    {pick : Nat × Nat} {mapping cache : Dict} {row : Row}
    {e : String × Outcome} {cache2 : Dict}
    (h : processRow captioner pick mapping cache row = .ok (e, cache2))
    {kk w : String} (hw : dictGet cache kk = some w) :
    dictGet cache2 kk = some w := by
  cases hparse : parse_style_number (pyStrip (pyStrOpt row.styleId)) with
  | none =>
    simp only [processRow, hparse, Except.ok.injEq, Prod.mk.injEq] at h
    obtain ⟨-, hc⟩ := h
    subst hc
    exact hw
  | some k =>
    cases hcache : dictGet cache k with
    | some d0 =>
      simp only [processRow, hparse, hcache, Except.ok.injEq, Prod.mk.injEq] at h
      obtain ⟨-, hc⟩ := h
      subst hc
      exact hw
    | none =>
      cases hmap : dictGet mapping k with
      | some path =>
        cases hcapt : captioner path with
        | error err =>
          simp only [processRow, hparse, hcache, hmap, hcapt] at h
          cases h
        | ok cap =>
          simp only [processRow, hparse, hcache, hmap, hcapt, Except.ok.injEq,
            Prod.mk.injEq] at h
          obtain ⟨-, hc⟩ := h
          subst hc
          exact dictGet_dictSet_pres hcache hw
      | none =>
        simp only [processRow, hparse, hcache, hmap, Except.ok.injEq,
          Prod.mk.injEq] at h
        obtain ⟨-, hc⟩ := h
        subst hc
        exact hw

lemma runLoop_pres {captioner : String → Except String String}
    {rand : Nat → Nat × Nat} {mapping : Dict} :
    ∀ {rows : List Row} {i : Nat} {cache : Dict}
      {out : List (String × Outcome)} {cacheF : Dict},
      runLoop captioner rand mapping rows i cache = .ok (out, cacheF) →
      ∀ {kk w : String}, dictGet cache kk = some w → dictGet cacheF kk = some w := by
  intro rows
  induction rows with
  | nil =>
    intro i cache out cacheF h kk w hw
    simp only [runLoop] at h
    cases h
    exact hw
  | cons row rest ih =>
    intro i cache out cacheF h kk w hw
    cases hp : processRow captioner (rand i) mapping cache row with
    | error err => simp only [runLoop, hp] at h; cases h
    | ok pr =>
      obtain ⟨e1, cache2⟩ := pr
      cases hr : runLoop captioner rand mapping rest (i + 1) cache2 with
      | error err => simp only [runLoop, hp, hr] at h; cases h
      | ok pr2 =>
        obtain ⟨ds, cf⟩ := pr2
        simp only [runLoop, hp, hr, Except.ok.injEq, Prod.mk.injEq] at h
        obtain ⟨-, hc⟩ := h
        subst hc
        exact ih hr (processRow_pres hp hw)

lemma runLoop_length {captioner : String → Except String String}
    {rand : Nat → Nat × Nat} {mapping : Dict} :
    ∀ {rows : List Row} {i : Nat} {cache : Dict}
      {out : List (String × Outcome)} {cacheF : Dict},
      runLoop captioner rand mapping rows i cache = .ok (out, cacheF) →
      out.length = rows.length := by
  intro rows
  induction rows with
  | nil =>
    intro i cache out cacheF h
    simp only [runLoop] at h
    cases h
    rfl
  | cons row rest ih =>
    intro i cache out cacheF h
    cases hp : processRow captioner (rand i) mapping cache row with
    | error err => simp only [runLoop, hp] at h; cases h
    | ok pr =>
      obtain ⟨e1, cache2⟩ := pr
      cases hr : runLoop captioner rand mapping rest (i + 1) cache2 with
      | error err => simp only [runLoop, hp, hr] at h; cases h
      | ok pr2 =>
        obtain ⟨ds, cf⟩ := pr2
        simp only [runLoop, hp, hr, Except.ok.injEq, Prod.mk.injEq] at h
        obtain ⟨ho, -⟩ := h
        subst ho
        simp only [List.length_cons, ih hr]

/-!
## Helper lemmas: `parse_style_number`
-/

lemma string_data_append (a b : String) : (a ++ b).data = a.data ++ b.data := rfl

lemma hasUnd_false {u : List Char} (h : ∀ c ∈ u, c ≠ '_') : hasUnd u = false := by
  simp only [hasUnd, List.any_eq_false]
  exact fun x hx => by simpa using h x hx

/-- Upper-casing determines the rest of `parse_style_number`. -/
lemma parse_style_number_upper_eq (r1 r2 : String)
    (h : pyUpperL r1.data = pyUpperL r2.data) :
    parse_style_number r1 = parse_style_number r2 := by
  unfold parse_style_number
  cases hd1 : r1.data with
  | nil =>
    have h2 : r2.data = [] := by
      rw [hd1] at h
      have := h.symm
      simpa [pyUpperL] using this
    rw [h2]
  | cons c1 l1 =>
    cases hd2 : r2.data with
    | nil =>
      rw [hd1, hd2] at h
      simp [pyUpperL] at h
    | cons c2 l2 =>
      rw [hd1, hd2] at h
      simp only [List.isEmpty_cons, Bool.false_eq_true, if_false]
      exact congrArg afterUpper h

/-- Truncation at the first underscore: appending `"_" ++ t` to a raw string
whose upper-casing has no whitespace and no underscore does not change the
parse. -/
lemma parse_style_number_und_suffix (r t : String) (hne : r.data ≠ [])
    (hch : ∀ c ∈ pyUpperL r.data, isPySpace c = false ∧ c ≠ '_') :
    parse_style_number (r ++ "_" ++ t) = parse_style_number r := by
  have hdata : (r ++ "_" ++ t).data = r.data ++ '_' :: t.data := by
    rw [string_data_append, string_data_append]
    simp [show ("_" : String).data = ['_'] from rfl]
  have hmap : pyUpperL (r.data ++ '_' :: t.data) =
      pyUpperL r.data ++ '_' :: pyUpperL t.data := by
    simp only [pyUpperL, List.map_append, List.map_cons]
    rfl
  have hws : ∀ c ∈ pyUpperL r.data, isPySpace c = false := fun c hc => (hch c hc).1
  have hund : ∀ c ∈ pyUpperL r.data, c ≠ '_' := fun c hc => (hch c hc).2
  unfold parse_style_number
  rw [hdata]
  have hne2 : (r.data ++ '_' :: t.data).isEmpty = false := by
    cases r.data <;> rfl
  have hne1 : r.data.isEmpty = false := by
    cases hr : r.data with
    | nil => exact absurd hr hne
    | cons => rfl
  rw [hne2, hne1]
  simp only [Bool.false_eq_true, if_false]
  rw [hmap]
  simp only [afterUpper]
  rw [stripWS_append_und hws, stripWS_of_all_false hws]
  rw [show hasUnd (pyUpperL r.data ++ '_' ::
      ((pyUpperL t.data).reverse.dropWhile isPySpace).reverse) = true by
    simp [hasUnd, List.any_append]]
  rw [hasUnd_false hund]
  simp only [if_true, Bool.false_eq_true, if_false]
  rw [takeWhile_append_cons
      (fun x hx => by simpa using hund x hx) (by decide)]

/-!
## Claims
-/

/-- C1 (counterexample): the code performs no whitespace removal, so
`"sr 425 706"` does **not** normalise to `"SR425-706"` — it normalises to
`None`, while `"SR425-706"` normalises to `"SR425-706"`.  This falsifies the
claimed equality of `normalize("sr 425 706")` with the others. -/
theorem C1_counterexample :
    parse_style_number "sr 425 706" = none ∧
    parse_style_number "SR425-706" = some "SR425-706" := by
  exact ⟨by decide, by decide⟩

/-- C1 (amended): raw strings that differ only by case normalise equally
(upper-casing determines the result), and a trailing `"_" ++ suffix` appended
to a raw string with no underscore and no whitespace does not change the
result; `"SR425-706"`, `"SR425706"` and `"SR425-706_103_1"` all normalise to
`"SR425-706"`.  Internal whitespace, however, is *not* normalised:
`normalize("sr 425 706") = None` (see the counterexample). -/
theorem C1_theorem :
    (∀ r1 r2 : String, pyUpperL r1.data = pyUpperL r2.data →
      parse_style_number r1 = parse_style_number r2) ∧
    (∀ r t : String, r.data ≠ [] →
      (∀ c ∈ pyUpperL r.data, isPySpace c = false ∧ c ≠ '_') →
      parse_style_number (r ++ "_" ++ t) = parse_style_number r) ∧
    parse_style_number "SR425-706" = some "SR425-706" ∧
    parse_style_number "SR425706" = some "SR425-706" ∧
    parse_style_number "SR425-706_103_1" = some "SR425-706" :=
  ⟨parse_style_number_upper_eq, parse_style_number_und_suffix,
   by decide, by decide, by decide⟩

/-- C1 witness: the amended equivalences at concrete inputs. -/
theorem C1_witness :
    parse_style_number "sR425-706" = parse_style_number "SR425-706" ∧
    parse_style_number ("SR425706" ++ "_" ++ "103_1") =
      parse_style_number "SR425706" :=
  ⟨C1_theorem.1 "sR425-706" "SR425-706" (by decide),
   C1_theorem.2.1 "SR425706" "103_1" (by decide) (by decide)⟩

/-- C2 (counterexample): a bare 6-digit run without the literal `SR` prefix
does not normalise — the second regex is `SR\d{6}`, not `(?:SR)?\d{6}` — so
`"123456"` normalises to `None`, not `"SR123-456"`.  (The claimed
strip-non-alphanumerics step does not exist in the code either, see C1.) -/
theorem C2_counterexample : parse_style_number "123456" = none := by decide

/-- C2 (amended): a 6-digit run *immediately preceded by `SR`* (and not
already in `SR###-###` form) is normalised by inserting the hyphen after the
third digit: for all digit characters `a`-`f`, `normalize("SR" + abcdef) =
"SRabc-def"`.  A bare 6-digit run without `SR` yields `None` (see the
counterexample). -/
theorem C2_theorem (a b c d e f : Char)
    (ha : a.isDigit = true) (hb : b.isDigit = true) (hc : c.isDigit = true)
    (hd : d.isDigit = true) (he : e.isDigit = true) (hf : f.isDigit = true) :
    parse_style_number (String.mk ['S', 'R', a, b, c, d, e, f]) =
      some (String.mk ['S', 'R', a, b, c, '-', d, e, f]) := by
  have hchars : ∀ x ∈ ['S', 'R', a, b, c, d, e, f], isPySpace x = false ∧ x ≠ '_' := by
    intro x hx
    simp only [List.mem_cons, List.not_mem_nil, or_false] at hx
    rcases hx with h | h | h | h | h | h | h | h
    · subst h; exact ⟨by decide, by decide⟩
    · subst h; exact ⟨by decide, by decide⟩
    · subst h
      exact ⟨isPySpace_false_of_isDigit _ ha, digit_ne _ ha '_' (by right; decide)⟩
    · subst h
      exact ⟨isPySpace_false_of_isDigit _ hb, digit_ne _ hb '_' (by right; decide)⟩
    · subst h
      exact ⟨isPySpace_false_of_isDigit _ hc, digit_ne _ hc '_' (by right; decide)⟩
    · subst h
      exact ⟨isPySpace_false_of_isDigit _ hd, digit_ne _ hd '_' (by right; decide)⟩
    · subst h
      exact ⟨isPySpace_false_of_isDigit _ he, digit_ne _ he '_' (by right; decide)⟩
    · subst h
      exact ⟨isPySpace_false_of_isDigit _ hf, digit_ne _ hf '_' (by right; decide)⟩
  have hup : pyUpperL ['S', 'R', a, b, c, d, e, f] = ['S', 'R', a, b, c, d, e, f] := by
    simp only [pyUpperL, List.map_cons, List.map_nil,
      toUpper_of_isDigit a ha, toUpper_of_isDigit b hb, toUpper_of_isDigit c hc,
      toUpper_of_isDigit d hd, toUpper_of_isDigit e he, toUpper_of_isDigit f hf]
    rfl
  simp only [parse_style_number]
  simp only [List.isEmpty_cons, Bool.false_eq_true, if_false]
  rw [hup]
  simp only [afterUpper]
  rw [stripWS_of_all_false (fun x hx => (hchars x hx).1),
      hasUnd_false (fun x hx => (hchars x hx).2)]
  simp only [Bool.false_eq_true, if_false]
  rw [show searchL matchSR33 ['S', 'R', a, b, c, d, e, f] = none from rfl]
  simp only [searchL, matchSR6, ha, hb, hc, hd, he, hf, beq_self_eq_true,
    Bool.true_and, Bool.and_self, if_true]
  rfl

/-- C2 witness: the amended rule at the concrete digits `123456`. -/
theorem C2_witness : parse_style_number "SR123456" = some "SR123-456" := by
  have h := C2_theorem '1' '2' '3' '4' '5' '6'
    (by decide) (by decide) (by decide) (by decide) (by decide) (by decide)
  exact h

/-- C3: every record reaches exactly one of the four outcomes of the
specification, with exactly the claimed description and cache effect in each
case: `INVALID_KEY` (fixed diagnostic, cache untouched), `CACHE_HIT` (cached
value, cache untouched), `GENERATED` (generated description stored under the
key), `NO_IMAGE` (diagnostic naming the key, cache untouched).  The cache is
written only in the `GENERATED` case. -/
theorem C3_theorem (captioner : String → Except String String) (pick : Nat × Nat)
    (mapping cache : Dict) (row : Row) :
    (parse_style_number (pyStrip (pyStrOpt row.styleId)) = none →
      processRow captioner pick mapping cache row =
        .ok (("No valid style number found.", Outcome.INVALID_KEY), cache)) ∧
    (∀ k d, parse_style_number (pyStrip (pyStrOpt row.styleId)) = some k →
      dictGet cache k = some d →
      processRow captioner pick mapping cache row =
        .ok ((d, Outcome.CACHE_HIT), cache)) ∧
    (∀ k p cap, parse_style_number (pyStrip (pyStrOpt row.styleId)) = some k →
      dictGet cache k = none → dictGet mapping k = some p →
      captioner p = .ok cap →
      processRow captioner pick mapping cache row =
        .ok ((generate_custom_description pick.1 pick.2 row cap, Outcome.GENERATED),
          dictSet cache k (generate_custom_description pick.1 pick.2 row cap))) ∧
    (∀ k, parse_style_number (pyStrip (pyStrOpt row.styleId)) = some k →
      dictGet cache k = none → dictGet mapping k = none →
      processRow captioner pick mapping cache row =
        .ok (("No matching image found for style " ++ k, Outcome.NO_IMAGE), cache)) := by
  refine ⟨?_, ?_, ?_, ?_⟩
  · intro hparse
    simp only [processRow, hparse]
  · intro k d hparse hcache
    simp only [processRow, hparse, hcache]
  · intro k p cap hparse hcache hmap hcapt
    simp only [processRow, hparse, hcache, hmap, hcapt]
  · intro k hparse hcache hmap
    simp only [processRow, hparse, hcache, hmap]

/-- C3 witness: the end-to-end `NO_IMAGE` scenario of the specification —
identifier `"SR999-999"`, empty archive index, empty cache. -/
theorem C3_witness :
    processRow (fun _ => .ok "a caption") (0, 0) [] []
      ⟨some "SR999-999", some "Dress", some "", none⟩ =
      .ok (("No matching image found for style SR999-999", Outcome.NO_IMAGE), []) := by
  have h := (C3_theorem (fun _ => .ok "a caption") (0, 0) [] []
    ⟨some "SR999-999", some "Dress", some "", none⟩).2.2.2
    "SR999-999" (by decide) rfl rfl
  exact h

/-- C5 (counterexample): there is no `try`/`except` around the captioner
call — with a captioner that raises, the loop does not produce any
description list at all: the exception propagates and aborts the batch
(the second record is never processed, nothing is saved). -/
theorem C5_counterexample :
    runLoop (fun _ => .error "boom") (fun _ => (0, 0)) [("SR100-200", "img")]
      [⟨some "SR100-200", some "Knit Dress", some "100% Cotton", none⟩,
       ⟨some "SR111-222", none, some "", none⟩] 0 [] = .error "boom" := by
  rfl

/-- C5 (amended): when the captioner raises for a record that reaches the
generation branch (valid key, cache miss, image present), the exception is
*not* caught: it propagates out of the loop, aborting the whole batch — no
description list and no final cache are produced, so in particular the
failing record's key is not persisted to the cache (`save_cache` is never
reached). -/
theorem C5_theorem (captioner : String → Except String String)
    (rand : Nat → Nat × Nat) (mapping cache : Dict) (row : Row)
    (rest : List Row) (i : Nat) (k p e : String)
    (hparse : parse_style_number (pyStrip (pyStrOpt row.styleId)) = some k)
    (hcache : dictGet cache k = none)
    (hmap : dictGet mapping k = some p)
    (hfail : captioner p = .error e) :
    runLoop captioner rand mapping (row :: rest) i cache = .error e := by
  simp only [runLoop, processRow, hparse, hcache, hmap, hfail]

/-- C5 witness: the amended abort behaviour at a concrete failing run. -/
theorem C5_witness :
    runLoop (fun _ => .error "quota exceeded") (fun _ => (0, 0))
      [("SR111-222", "p.jpg")] [⟨some "SR111-222", none, none, none⟩] 0 [] =
      .error "quota exceeded" := by
  have h := C5_theorem (fun _ => .error "quota exceeded") (fun _ => (0, 0))
    [("SR111-222", "p.jpg")] [] ⟨some "SR111-222", none, none, none⟩ [] 0
    "SR111-222" "p.jpg" "quota exceeded" (by decide) rfl (by decide) rfl
  exact h

/-- C7 (counterexample): when the cache store exists but its content is not
valid JSON, `load_cache` does not return an empty mapping — `json.load`
raises and the error propagates (the run aborts). -/
theorem C7_counterexample :
    load_cache (fun _ => none) (some "not json") ≠ Except.ok ([] : Dict) ∧
    load_cache (fun _ => none) (some "not json") =
      Except.error "json.load: invalid JSON" := by
  exact ⟨fun h => Except.noConfusion h, rfl⟩

/-- C7 (amended): `load_cache` returns the empty mapping when no prior
storage exists (not an error), and returns the parsed mapping when the store
is readable; but when the store exists and its content is unreadable,
`json.load` raises and the failure propagates — a corrupt cache store is
fatal, not treated as an empty cache. -/
theorem C7_theorem :
    (∀ jsonParse, load_cache jsonParse none = .ok ([] : Dict)) ∧
    (∀ jsonParse content cache, jsonParse content = some cache →
      load_cache jsonParse (some content) = .ok cache) ∧
    (∀ jsonParse content, jsonParse content = none →
      load_cache jsonParse (some content) =
        .error "json.load: invalid JSON") := by
  refine ⟨fun _ => rfl, ?_, ?_⟩
  · intro jsonParse content cache h
    simp only [load_cache, h]
  · intro jsonParse content h
    simp only [load_cache, h]

/-- C7 witness: the amended behaviour at concrete stores. -/
theorem C7_witness :
    load_cache (fun _ => some [("SR100-200", "text")]) none = .ok ([] : Dict) ∧
    load_cache (fun _ => none) (some "corrupt") =
      .error "json.load: invalid JSON" :=
  ⟨C7_theorem.1 (fun _ => some [("SR100-200", "text")]),
   C7_theorem.2.2 (fun _ => none) "corrupt" rfl⟩

/-- C8: `parse_main_material` selects the highest-percentage segment and
strips parenthetical trademark annotations — the three specified examples
hold exactly. -/
theorem C8_theorem :
    parse_main_material "80% Viscose (TRADEMARK) 20% Nylon" = "Viscose" ∧
    parse_main_material "" = "" ∧
    parse_main_material "100% Cotton" = "Cotton" := by
  exact ⟨by decide, by decide, by decide⟩

/-- C9: `update_b2c_tags` defaults a missing `B2C Tags` to `""` but does not
default a missing `Quality`: any input containing a row whose quality is
absent (NaN) makes the whole tag pass raise (`.str` propagates NaN and the
`split` in the `Quality Tags` lambda fails on a float). -/
theorem C9_theorem : ∀ (rows : List Row) (r : Row), r ∈ rows →
    r.quality = none → update_b2c_tags rows = none := by
  intro rows
  induction rows with
  | nil => intro r hr _; exact absurd hr (List.not_mem_nil r)
  | cons row rest ih =>
    intro r hr hq
    rcases List.mem_cons.mp hr with h | h
    · have hrow : update_row row = none := by
        subst h
        simp only [update_row, hq]
      simp only [update_b2c_tags, hrow]
    · have hrest : update_b2c_tags rest = none := ih r h hq
      simp only [update_b2c_tags, hrest]
      cases update_row row <;> rfl

/-- C9 witness: a single row with string tags but `NaN` quality aborts the
tag pass. -/
theorem C9_witness :
    update_b2c_tags [⟨some "SR425-706", some "Dress", none, some "tag1"⟩] = none :=
  C9_theorem [⟨some "SR425-706", some "Dress", none, some "tag1"⟩]
    ⟨some "SR425-706", some "Dress", none, some "tag1"⟩
    (List.mem_singleton.mpr rfl) rfl

/-- A row whose quality re-contributes a token already present in its tags. -/
def c6row : Row := ⟨some "SR100-200", some "", some "Cotton", some "Cotton,Red"⟩

/-- The same row after one pass of the tag normaliser. -/
def c6row1 : Row := ⟨some "SR100-200", some "", some "Cotton", some "Cotton,Red,Cotton"⟩

/-- C6 (counterexample): the final merge `",".join(set([b2c, quality_tags]))`
joins two *whole strings*, not tokens.  On a row with tags `"Cotton,Red"` and
quality `"Cotton"`, one pass yields the tag string `"Cotton,Red,Cotton"`
(the token `Cotton` duplicated), and a second pass appends `",Cotton"` again —
so tag normalisation is neither duplicate-free nor idempotent. -/
theorem C6_counterexample :
    update_b2c_tags [c6row] = some [c6row1] ∧
    update_b2c_tags [c6row1] ≠ some [c6row1] ∧
    ¬ (splitComma "Cotton,Red,Cotton").Nodup := by
  exact ⟨by decide, by decide, by decide⟩

lemma foldl_applyTagKey_nomatch {sn : Option String}
    {l : List (String × List String)}
    (h : ∀ kv ∈ l, styleMatch sn kv.1 = false) :
    ∀ b, l.foldl (applyTagKey sn) b = b := by
  induction l with
  | nil => intro b; rfl
  | cons kv rest ih =>
    intro b
    have hkv : styleMatch sn kv.1 = false := h kv (List.mem_cons_self kv rest)
    have hstep : applyTagKey sn b kv = b := by
      simp only [applyTagKey, hkv, Bool.false_eq_true, if_false]
    simp only [List.foldl_cons, hstep]
    exact ih (fun x hx => h x (List.mem_cons_of_mem kv hx)) b

/-- C6 (amended): tag normalisation is *not* idempotent in general and does
not guarantee token-level set semantics (see the counterexample).  It is
idempotent — indeed, the identity — on records whose style name matches no
translation keyword, whose quality contributes no tokens, and whose existing
tag string carries no leading/trailing commas: such records are fixed points
of `update_row`. -/
theorem C6_theorem (row : Row) (b q : String)
    (hb : row.b2cTags = some b) (hq : row.quality = some q)
    (hmatch : ∀ kv ∈ tag_translations, styleMatch row.styleName kv.1 = false)
    (hqt : qualityTagsOf q = "")
    (hstrip : stripCommas b = b) :
    update_row row = some row := by
  obtain ⟨sid, sn, qu, bt⟩ := row
  simp only at hb hq hmatch
  subst hb
  subst hq
  have hfold := foldl_applyTagKey_nomatch hmatch b
  simp only [update_row, Option.getD_some, hfold, hqt]
  rw [show ("" : String).data.isEmpty = true from rfl]
  simp only [if_true, hstrip]

/-- C6 witness: a concrete fixed-point row. -/
theorem C6_witness :
    update_row ⟨some "SR1", some "xyz", some "", some "a,b"⟩ =
      some ⟨some "SR1", some "xyz", some "", some "a,b"⟩ :=
  C6_theorem ⟨some "SR1", some "xyz", some "", some "a,b"⟩ "a,b" ""
    rfl rfl (by decide) (by decide) (by decide)

/-- Inside a run, a record whose key is already in the cache at the start of
the run is emitted with exactly the cached value (the cache only ever grows
with fresh keys, so the binding seen at that record's turn is the original
one). -/
lemma runLoop_cached_desc {captioner : String → Except String String}
    {rand : Nat → Nat × Nat} {mapping : Dict} :
    ∀ {rows : List Row} {i : Nat} {cache : Dict}
      {out : List (String × Outcome)} {cacheF : Dict},
      runLoop captioner rand mapping rows i cache = .ok (out, cacheF) →
      ∀ (j : Nat) (hj : j < rows.length) (hjo : j < out.length) (k v : String),
        parse_style_number (pyStrip (pyStrOpt (rows.get ⟨j, hj⟩).styleId)) = some k →
        dictGet cache k = some v →
        (out.get ⟨j, hjo⟩).1 = v := by
  intro rows
  induction rows with
  | nil =>
    intro i cache out cacheF h j hj
    exact absurd hj (by simp)
  | cons row rest ih =>
    intro i cache out cacheF h j hj hjo k v hparse hcv
    cases hp : processRow captioner (rand i) mapping cache row with
    | error err => simp only [runLoop, hp] at h; cases h
    | ok pr =>
      obtain ⟨e1, cache2⟩ := pr
      cases hr : runLoop captioner rand mapping rest (i + 1) cache2 with
      | error err => simp only [runLoop, hp, hr] at h; cases h
      | ok pr2 =>
        obtain ⟨ds, cf⟩ := pr2
        simp only [runLoop, hp, hr, Except.ok.injEq, Prod.mk.injEq] at h
        obtain ⟨ho, -⟩ := h
        subst ho
        cases j with
        | zero =>
          simp only [List.get] at hparse
          have hp2 := hp
          simp only [processRow, hparse, hcv, Except.ok.injEq, Prod.mk.injEq] at hp2
          obtain ⟨he1, -⟩ := hp2
          simp only [List.get, ← he1]
        | succ j' =>
          have hc2 : dictGet cache2 k = some v := processRow_pres hp hcv
          have hj' : j' < rest.length := by
            simp only [List.length_cons] at hj
            omega
          have hjo' : j' < ds.length := by
            simp only [List.length_cons] at hjo
            omega
          have hparse' :
              parse_style_number (pyStrip (pyStrOpt (rest.get ⟨j', hj'⟩).styleId)) =
                some k := by
            simpa using hparse
          have := ih hr j' hj' hjo' k v hparse' hc2
          simpa using this

/-- C10: for a record whose normalised key is present in the loaded cache,
the emitted description equals the cached value and depends on nothing else:
two runs over record lists with identical style identifiers — but arbitrary
other fields, arbitrary image mappings, arbitrary captioners and random
draws — emit the same (cached) description for that record. -/
theorem C10_theorem (rows1 rows2 : List Row)
    (captioner1 captioner2 : String → Except String String)
    (rand1 rand2 : Nat → Nat × Nat) (m1 m2 : Dict) (i1 i2 : Nat) (cache : Dict)
    (out1 : List (String × Outcome)) (cf1 : Dict)
    (out2 : List (String × Outcome)) (cf2 : Dict)
    (hid : ∀ (j : Nat) (ha : j < rows1.length) (hb : j < rows2.length),
      (rows1.get ⟨j, ha⟩).styleId = (rows2.get ⟨j, hb⟩).styleId)
    (h1 : runLoop captioner1 rand1 m1 rows1 i1 cache = .ok (out1, cf1))
    (h2 : runLoop captioner2 rand2 m2 rows2 i2 cache = .ok (out2, cf2))
    (j : Nat) (hj1 : j < rows1.length) (hj2 : j < rows2.length)
    (ho1 : j < out1.length) (ho2 : j < out2.length) (k v : String)
    (hparse : parse_style_number
      (pyStrip (pyStrOpt (rows1.get ⟨j, hj1⟩).styleId)) = some k)
    (hcache : dictGet cache k = some v) :
    (out1.get ⟨j, ho1⟩).1 = v ∧ (out2.get ⟨j, ho2⟩).1 = v ∧
    (out1.get ⟨j, ho1⟩).1 = (out2.get ⟨j, ho2⟩).1 := by
  have e1 := runLoop_cached_desc h1 j hj1 ho1 k v hparse hcache
  have hparse2 : parse_style_number
      (pyStrip (pyStrOpt (rows2.get ⟨j, hj2⟩).styleId)) = some k := by
    rw [← hid j hj1 hj2]
    exact hparse
  have e2 := runLoop_cached_desc h2 j hj2 ho2 k v hparse2 hcache
  exact ⟨e1, e2, e1.trans e2.symm⟩

/-- One of the C10 witness rows. -/
def c10row1 : Row := ⟨some "SR100-200", some "Dress A", some "100% Wool", none⟩

/-- The other C10 witness row: same identifier, different everything else. -/
def c10row2 : Row := ⟨some "SR100-200", some "Shirt B", some "50% Silk 50% Linen", some "x"⟩

/-- The C10 witness cache. -/
def c10cache : Dict := [("SR100-200", "the cached text")]

/-- C10 witness: two concrete runs differing in the record's other fields,
the image mapping, the captioner (even a failing one) and the random draws
still both emit the cached text. -/
theorem C10_witness :
    ([("the cached text", Outcome.CACHE_HIT)].get ⟨0, Nat.zero_lt_one⟩).1 =
      "the cached text" ∧
    ([("the cached text", Outcome.CACHE_HIT)].get ⟨0, Nat.zero_lt_one⟩).1 =
      "the cached text" ∧
    ([("the cached text", Outcome.CACHE_HIT)].get ⟨0, Nat.zero_lt_one⟩).1 =
      ([("the cached text", Outcome.CACHE_HIT)].get ⟨0, Nat.zero_lt_one⟩).1 :=
  C10_theorem [c10row1] [c10row2] (fun _ => .ok "c1") (fun _ => .error "down")
    (fun _ => (0, 0)) (fun _ => (7, 3)) [] [("SR100-200", "img.jpg")] 0 0
    c10cache [("the cached text", Outcome.CACHE_HIT)] c10cache
    [("the cached text", Outcome.CACHE_HIT)] c10cache
    (fun j ha _ => by
      cases j with
      | zero => rfl
      | succ n =>
        simp only [List.length_cons, List.length_nil] at ha
        omega)
    rfl rfl 0 Nat.zero_lt_one Nat.zero_lt_one Nat.zero_lt_one Nat.zero_lt_one
    "SR100-200" "the cached text" (by decide) rfl

/-- Replaying the loop on the same rows and image mapping, starting from any
cache that preserves every binding of the first run's final cache, succeeds
without any captioner call, leaves the cache unchanged, and turns every
`GENERATED` record into a `CACHE_HIT` with the identical description. -/
lemma runLoop_replay {captioner1 : String → Except String String}
    {rand1 : Nat → Nat × Nat} {mapping : Dict} :
    ∀ {rows : List Row} {i1 : Nat} {c : Dict}
      {out : List (String × Outcome)} {cf : Dict},
      runLoop captioner1 rand1 mapping rows i1 c = .ok (out, cf) →
      ∀ (captioner2 : String → Except String String) (rand2 : Nat → Nat × Nat)
        (i2 : Nat) (d : Dict),
        (∀ k v, dictGet cf k = some v → dictGet d k = some v) →
        ∃ out2, runLoop captioner2 rand2 mapping rows i2 d = .ok (out2, d) ∧
          out2.length = out.length ∧
          ∀ (j : Nat) (hj : j < out.length) (hj2 : j < out2.length),
            (out.get ⟨j, hj⟩).2 = Outcome.GENERATED →
            out2.get ⟨j, hj2⟩ = ((out.get ⟨j, hj⟩).1, Outcome.CACHE_HIT) := by
  intro rows
  induction rows with
  | nil =>
    intro i1 c out cf h captioner2 rand2 i2 d hmono
    simp only [runLoop, Except.ok.injEq, Prod.mk.injEq] at h
    obtain ⟨ho, -⟩ := h
    subst ho
    exact ⟨[], rfl, rfl, fun j hj => absurd hj (by simp)⟩
  | cons row rest ih =>
    intro i1 c out cf h captioner2 rand2 i2 d hmono
    cases hp : processRow captioner1 (rand1 i1) mapping c row with
    | error err => simp only [runLoop, hp] at h; cases h
    | ok pr =>
      obtain ⟨e1, cache2⟩ := pr
      cases hr : runLoop captioner1 rand1 mapping rest (i1 + 1) cache2 with
      | error err => simp only [runLoop, hp, hr] at h; cases h
      | ok pr2 =>
        obtain ⟨ds, cf'⟩ := pr2
        simp only [runLoop, hp, hr, Except.ok.injEq, Prod.mk.injEq] at h
        obtain ⟨ho, hcf⟩ := h
        subst ho
        subst hcf
        obtain ⟨out2', hrun2', hlen2', hgen2'⟩ := ih hr captioner2 rand2 (i2 + 1) d hmono
        cases hparse : parse_style_number (pyStrip (pyStrOpt row.styleId)) with
        | none =>
          have hp1 := hp
          simp only [processRow, hparse, Except.ok.injEq, Prod.mk.injEq] at hp1
          obtain ⟨he1, hc2⟩ := hp1
          subst he1
          subst hc2
          have head2 : processRow captioner2 (rand2 i2) mapping d row =
              .ok (("No valid style number found.", Outcome.INVALID_KEY), d) := by
            simp only [processRow, hparse]
          refine ⟨("No valid style number found.", Outcome.INVALID_KEY) :: out2',
            ?_, ?_, ?_⟩
          · simp only [runLoop, head2, hrun2']
          · simp only [List.length_cons, hlen2']
          · intro j hj hj2 hgen
            cases j with
            | zero => simp only [List.get] at hgen; cases hgen
            | succ j' =>
              have hj' : j' < ds.length := by
                simp only [List.length_cons] at hj; omega
              have hj2' : j' < out2'.length := by
                simp only [List.length_cons] at hj2; omega
              have := hgen2' j' hj' hj2' (by simpa using hgen)
              simpa using this
        | some k =>
          cases hcv : dictGet c k with
          | some d0 =>
            have hp1 := hp
            simp only [processRow, hparse, hcv, Except.ok.injEq, Prod.mk.injEq] at hp1
            obtain ⟨he1, hc2⟩ := hp1
            subst he1
            subst hc2
            have hdk : dictGet d k = some d0 := hmono k d0 (runLoop_pres hr hcv)
            have head2 : processRow captioner2 (rand2 i2) mapping d row =
                .ok ((d0, Outcome.CACHE_HIT), d) := by
              simp only [processRow, hparse, hdk]
            refine ⟨(d0, Outcome.CACHE_HIT) :: out2', ?_, ?_, ?_⟩
            · simp only [runLoop, head2, hrun2']
            · simp only [List.length_cons, hlen2']
            · intro j hj hj2 hgen
              cases j with
              | zero => simp only [List.get] at hgen; cases hgen
              | succ j' =>
                have hj' : j' < ds.length := by
                  simp only [List.length_cons] at hj; omega
                have hj2' : j' < out2'.length := by
                  simp only [List.length_cons] at hj2; omega
                have := hgen2' j' hj' hj2' (by simpa using hgen)
                simpa using this
          | none =>
            cases hmap : dictGet mapping k with
            | some path =>
              cases hcapt : captioner1 path with
              | error err =>
                simp only [processRow, hparse, hcv, hmap, hcapt] at hp
                cases hp
              | ok cap =>
                have hp1 := hp
                simp only [processRow, hparse, hcv, hmap, hcapt, Except.ok.injEq,
                  Prod.mk.injEq] at hp1
                obtain ⟨he1, hc2⟩ := hp1
                subst he1
                subst hc2
                have hfd : dictGet
                    (dictSet c k (generate_custom_description (rand1 i1).1
                      (rand1 i1).2 row cap)) k =
                    some (generate_custom_description (rand1 i1).1
                      (rand1 i1).2 row cap) :=
                  dictGet_dictSet_self _ hcv
                have hdk : dictGet d k =
                    some (generate_custom_description (rand1 i1).1
                      (rand1 i1).2 row cap) :=
                  hmono k _ (runLoop_pres hr hfd)
                have head2 : processRow captioner2 (rand2 i2) mapping d row =
                    .ok ((generate_custom_description (rand1 i1).1
                      (rand1 i1).2 row cap, Outcome.CACHE_HIT), d) := by
                  simp only [processRow, hparse, hdk]
                refine ⟨(generate_custom_description (rand1 i1).1
                    (rand1 i1).2 row cap, Outcome.CACHE_HIT) :: out2', ?_, ?_, ?_⟩
                · simp only [runLoop, head2, hrun2']
                · simp only [List.length_cons, hlen2']
                · intro j hj hj2 hgen
                  cases j with
                  | zero => simp only [List.get]
                  | succ j' =>
                    have hj' : j' < ds.length := by
                      simp only [List.length_cons] at hj; omega
                    have hj2' : j' < out2'.length := by
                      simp only [List.length_cons] at hj2; omega
                    have := hgen2' j' hj' hj2' (by simpa using hgen)
                    simpa using this
            | none =>
              have hp1 := hp
              simp only [processRow, hparse, hcv, hmap, Except.ok.injEq,
                Prod.mk.injEq] at hp1
              obtain ⟨he1, hc2⟩ := hp1
              subst he1
              subst hc2
              cases hdk : dictGet d k with
              | some w =>
                have head2 : processRow captioner2 (rand2 i2) mapping d row =
                    .ok ((w, Outcome.CACHE_HIT), d) := by
                  simp only [processRow, hparse, hdk]
                refine ⟨(w, Outcome.CACHE_HIT) :: out2', ?_, ?_, ?_⟩
                · simp only [runLoop, head2, hrun2']
                · simp only [List.length_cons, hlen2']
                · intro j hj hj2 hgen
                  cases j with
                  | zero => simp only [List.get] at hgen; cases hgen
                  | succ j' =>
                    have hj' : j' < ds.length := by
                      simp only [List.length_cons] at hj; omega
                    have hj2' : j' < out2'.length := by
                      simp only [List.length_cons] at hj2; omega
                    have := hgen2' j' hj' hj2' (by simpa using hgen)
                    simpa using this
              | none =>
                have head2 : processRow captioner2 (rand2 i2) mapping d row =
                    .ok (("No matching image found for style " ++ k,
                      Outcome.NO_IMAGE), d) := by
                  simp only [processRow, hparse, hdk, hmap]
                refine ⟨("No matching image found for style " ++ k,
                    Outcome.NO_IMAGE) :: out2', ?_, ?_, ?_⟩
                · simp only [runLoop, head2, hrun2']
                · simp only [List.length_cons, hlen2']
                · intro j hj hj2 hgen
                  cases j with
                  | zero => simp only [List.get] at hgen; cases hgen
                  | succ j' =>
                    have hj' : j' < ds.length := by
                      simp only [List.length_cons] at hj; omega
                    have hj2' : j' < out2'.length := by
                      simp only [List.length_cons] at hj2; omega
                    have := hgen2' j' hj' hj2' (by simpa using hgen)
                    simpa using this

/-- C4: running the pipeline a second time on the same record set and image
mapping, starting from the cache persisted by the first run, succeeds (with
any captioner and any random draws), leaves the cache byte-identical, and
yields `CACHE_HIT` with the byte-identical description for every record that
was `GENERATED` in the first run. -/
theorem C4_theorem (captioner1 captioner2 : String → Except String String)
    (rand1 rand2 : Nat → Nat × Nat) (mapping : Dict) (rows : List Row)
    (i1 i2 : Nat) (c0 : Dict) (out1 : List (String × Outcome)) (cf1 : Dict)
    (h1 : runLoop captioner1 rand1 mapping rows i1 c0 = .ok (out1, cf1)) :
    ∃ out2, runLoop captioner2 rand2 mapping rows i2 cf1 = .ok (out2, cf1) ∧
      out2.length = out1.length ∧
      ∀ (j : Nat) (hj : j < out1.length) (hj2 : j < out2.length),
        (out1.get ⟨j, hj⟩).2 = Outcome.GENERATED →
        out2.get ⟨j, hj2⟩ = ((out1.get ⟨j, hj⟩).1, Outcome.CACHE_HIT) :=
  runLoop_replay h1 captioner2 rand2 i2 cf1 (fun _ _ h => h)

/-- The C4 witness record. -/
def c4row : Row := ⟨some "SR100-200", some "Knit Dress", some "100% Cotton", none⟩

/-- The description generated for the C4 witness record in the first run. -/
def c4desc : String := generate_custom_description 0 0 c4row "a long sleeve shirt"

/-- C4 witness: a concrete first run generates and caches a description; the
second run — even with a captioner that would fail — replays it as a cache
hit with the identical text. -/
theorem C4_witness :
    ∃ out2, runLoop (fun _ => .error "never called") (fun _ => (7, 2))
        [("SR100-200", "img.jpg")] [c4row] 0 [("SR100-200", c4desc)] =
        .ok (out2, [("SR100-200", c4desc)]) ∧
      out2.length = [(c4desc, Outcome.GENERATED)].length ∧
      ∀ (j : Nat) (hj : j < [(c4desc, Outcome.GENERATED)].length)
        (hj2 : j < out2.length),
        ([(c4desc, Outcome.GENERATED)].get ⟨j, hj⟩).2 = Outcome.GENERATED →
        out2.get ⟨j, hj2⟩ =
          (([(c4desc, Outcome.GENERATED)].get ⟨j, hj⟩).1, Outcome.CACHE_HIT) :=
  C4_theorem (fun _ => .ok "a long sleeve shirt") (fun _ => .error "never called")
    (fun _ => (0, 0)) (fun _ => (7, 2)) [("SR100-200", "img.jpg")] [c4row] 0 0
    [] [(c4desc, Outcome.GENERATED)] [("SR100-200", c4desc)] rfl

end App
